import Mathlib

/-!
Shallow embedding of `src/index.js` (a conversational QA agent over a CSV
corpus) and proofs about it.

Part A embeds the change-aware indexing startup (lines 29-64 of the source):
hashing the corpus, comparing against the fingerprint sidecar, and the
rebuild/persist/reload sequence.  External collaborators (the sha256 digest,
the CSV loader, the embedding-backed index build) are passed in as function
parameters, as the spec treats them as black boxes at their interface.

Part B embeds the conversational retrieval chain (lines 73-176): prompt
construction, the rephrase / retrieve / generate pipeline, and the
message-history wrapper.
-/

set_option autoImplicit false

namespace QACSV

/-- State of a file on disk: absent, present but unreadable (a read throws),
or readable with the given content. -/
inductive FileState (α : Type) where
  | absent
  | unreadable
  | readable (content : α)
deriving DecidableEq

/-- A LangChain document as produced by `CSVLoader`: page content plus
string metadata. -/
structure Doc where
  pageContent : String
  metadata : List (String × String)
deriving DecidableEq

/-! ## Part A: change-aware indexing startup (src/index.js lines 29-64) -/

/-- Errors the startup code can throw (uncaught exceptions of the module
top level). -/
inductive JsErr where
  | corpusMissing
  | corpusUnreadable
  | sidecarUnreadable
  | embeddingError
  | saveError
  | loadError
deriving DecidableEq

/-- Observable side-effecting events of the rebuild branch, in order:
successful `HNSWLib.fromDocuments` (build), successful `save` (persisting
the index to `DIRECTORY`), and `writeFileSync` of the hash sidecar. -/
inductive Ev where
  | buildOk
  | persistIndex
  | writeSidecar
deriving DecidableEq

/-- Trace of a startup run: how many documents were sent to the embedding
model, and which writes happened, in order. -/
structure Trace where
  embedCalls : Nat
  events : List Ev
deriving DecidableEq

/-- The on-disk state the startup touches: the CSV corpus at
`CSV_FILE_PATH`, the hash sidecar at `HASH_FILE_PATH`, and the persisted
vector index at `DIRECTORY` (opaque payload of type `ι`). -/
structure JsFS (ι : Type) where
  corpus : FileState (List Nat)
  sidecar : FileState String
  indexDir : Option ι
deriving DecidableEq

/-- JavaScript truthiness of the `previousHash` variable at line 50:
it is falsy when it was never assigned (sidecar absent) or when the
sidecar held the empty string. -/
def jsFalsyOptStr : Option String → Bool
  | none => true
  | some s => decide (s = "")

/-- The rebuild condition of line 50,
`!previousHash || currentHash !== previousHash`, with `previousHash`
as read on lines 43-46 (`none` when `HASH_FILE_PATH` does not exist). -/
def shouldReindex (previousHash : Option String) (currentHash : String) : Bool :=
  jsFalsyOptStr previousHash || decide (previousHash ≠ some currentHash)

/-- Lines 40-46: `previousHash` is left undefined when the sidecar does not
exist; otherwise `fs.readFileSync` is called, whose exception on an
unreadable file propagates (it is not caught anywhere in the module). -/
def readSidecar : FileState String → Except JsErr (Option String)
  | .absent => .ok none
  | .unreadable => .error .sidecarUnreadable
  | .readable s => .ok (some s)

/-- The startup sequence, lines 37-64 of `src/index.js`:
compute `currentHash = calculateHash(CSV_FILE_PATH)` (fatal if the corpus is
missing or unreadable), read `previousHash` from the sidecar, run the rebuild
branch when `shouldReindex`, and finally `HNSWLib.load(DIRECTORY)` (fatal if
no persisted index exists).  In the rebuild branch the documents are loaded
(`CSVLoader`), each document is embedded and the index is built
(`HNSWLib.fromDocuments`, fallible), the index is saved to `DIRECTORY`
(fallibility controlled by `saveOk`), and only then is the sidecar
overwritten with `currentHash` — the trace records that write order.
The external hash, loader and build functions are parameters. -/
def startup {ι : Type} (hash : List Nat → String) (loadDocs : List Nat → List Doc)
    (build : List Doc → Except Unit ι) (saveOk : Bool) (fs : JsFS ι) :
    Except JsErr (JsFS ι) × Trace :=
  match fs.corpus with
  | .absent => (.error .corpusMissing, Trace.mk 0 [])
  | .unreadable => (.error .corpusUnreadable, Trace.mk 0 [])
  | .readable bytes =>
    let currentHash := hash bytes
    match readSidecar fs.sidecar with
    | .error e => (.error e, Trace.mk 0 [])
    | .ok previousHash =>
      if shouldReindex previousHash currentHash then
        let docs := loadDocs bytes
        match build docs with
        | .error _ => (.error .embeddingError, Trace.mk docs.length [])
        | .ok idx =>
          if saveOk then
            (.ok (JsFS.mk fs.corpus (.readable currentHash) (some idx)),
             Trace.mk docs.length [Ev.buildOk, Ev.persistIndex, Ev.writeSidecar])
          else
            (.error .saveError, Trace.mk docs.length [Ev.buildOk])
      else
        match fs.indexDir with
        | none => (.error .loadError, Trace.mk 0 [])
        | some _ => (.ok fs, Trace.mk 0 [])

/-- After any successful startup run, the file system is in the canonical
shape: corpus readable, sidecar holding exactly the corpus's current hash,
and a persisted index present. -/
theorem startup_ok_shape {ι : Type} (hash : List Nat → String)
    (loadDocs : List Nat → List Doc) (build : List Doc → Except Unit ι)
    (saveOk : Bool) (fs fs1 : JsFS ι) (tr1 : Trace)
    (h1 : startup hash loadDocs build saveOk fs = (.ok fs1, tr1)) :
    ∃ bytes idx, fs1 = JsFS.mk (.readable bytes) (.readable (hash bytes)) (some idx) := by
  obtain ⟨corpusF, sidecarF, idxD⟩ := fs
  cases corpusF with
  | absent => exact absurd h1 (by simp [startup])
  | unreadable => exact absurd h1 (by simp [startup])
  | readable bytes =>
    cases sidecarF with
    | unreadable => exact absurd h1 (by simp [startup, readSidecar])
    | absent =>
      simp only [startup, readSidecar] at h1
      rw [if_pos (by rfl)] at h1
      cases hb : build (loadDocs bytes) with
      | error e => rw [hb] at h1; exact absurd h1 (by simp)
      | ok idx =>
        rw [hb] at h1
        cases saveOk with
        | false => exact absurd h1 (by simp)
        | true =>
          simp only [if_true, Prod.mk.injEq, Except.ok.injEq] at h1
          exact ⟨bytes, idx, h1.1.symm⟩
    | readable prev =>
      simp only [startup, readSidecar] at h1
      cases hcond : shouldReindex (some prev) (hash bytes) with
      | true =>
        rw [if_pos hcond] at h1
        cases hb : build (loadDocs bytes) with
        | error e => rw [hb] at h1; exact absurd h1 (by simp)
        | ok idx =>
          rw [hb] at h1
          cases saveOk with
          | false => exact absurd h1 (by simp)
          | true =>
            simp only [if_true, Prod.mk.injEq, Except.ok.injEq] at h1
            exact ⟨bytes, idx, h1.1.symm⟩
      | false =>
        rw [if_neg (by simp [hcond])] at h1
        cases idxD with
        | none => exact absurd h1 (by simp)
        | some i =>
          simp only [Prod.mk.injEq, Except.ok.injEq] at h1
          have hprev : prev = hash bytes := by
            simp only [shouldReindex, jsFalsyOptStr, Bool.or_eq_false_iff,
              decide_eq_false_iff_not, Decidable.not_not] at hcond
            exact Option.some.injEq _ _ ▸ (by exact_mod_cast hcond.2)
          exact ⟨bytes, i, by rw [← h1.1, hprev]⟩

/-- Running the startup on a file system whose sidecar already holds the
corpus's current (nonempty) hash does not enter the rebuild branch: it
succeeds, changes nothing, performs no embedding calls and emits no write
events. -/
theorem startup_fresh_sidecar {ι : Type} (hash : List Nat → String)
    (loadDocs : List Nat → List Doc) (build : List Doc → Except Unit ι)
    (saveOk : Bool) (bytes : List Nat) (idx : ι) (hne : hash bytes ≠ "") :
    startup hash loadDocs build saveOk
        (JsFS.mk (.readable bytes) (.readable (hash bytes)) (some idx)) =
      (.ok (JsFS.mk (.readable bytes) (.readable (hash bytes)) (some idx)),
       Trace.mk 0 []) := by
  have hcond : shouldReindex (some (hash bytes)) (hash bytes) = false := by
    simp [shouldReindex, jsFalsyOptStr, hne]
  simp [startup, readSidecar, hcond]

/-- C7: the rebuild condition is `true` when no sidecar exists, and for an
existing sidecar it is `true` exactly when the stored fingerprint differs
from the freshly computed one (which, being a sha256 hex digest, has
length 64 and in particular is nonempty). -/
theorem c7_shouldReindex_spec (hash : List Nat → String)
    (hhex : ∀ b, (hash b).length = 64) (bytes : List Nat) :
    shouldReindex none (hash bytes) = true ∧
    ∀ p, (shouldReindex (some p) (hash bytes) = true ↔ p ≠ hash bytes) := by
  have hne : hash bytes ≠ "" := by
    intro h0
    exact absurd (hhex bytes) (by rw [h0]; decide)
  refine ⟨rfl, fun p => ?_⟩
  simp only [shouldReindex, jsFalsyOptStr, Bool.or_eq_true, decide_eq_true_eq,
    ne_eq, Option.some.injEq]
  constructor
  · rintro (rfl | h)
    · exact fun hc => hne hc.symm
    · exact h
  · exact fun h => Or.inr h

/-- A deterministic stand-in for the sha256 hex digest used to witness the
interface hypothesis `(hash b).length = 64`. -/
def constHash64 : List Nat → String :=
  fun _ => String.mk (List.replicate 64 'a')

/-- The stand-in digest is never the empty string. -/
theorem constHash64_ne_empty (b : List Nat) : constHash64 b ≠ "" := by
  show String.mk (List.replicate 64 'a') ≠ ""
  decide

/-- Witness for C7 at a concrete hash function, corpus and stored value. -/
theorem c7_shouldReindex_spec_witness :
    (∀ b, (constHash64 b).length = 64) ∧
    (shouldReindex none (constHash64 []) = true ∧
      ∀ p, (shouldReindex (some p) (constHash64 []) = true ↔ p ≠ constHash64 [])) :=
  ⟨fun _ => rfl, c7_shouldReindex_spec constHash64 (fun _ => rfl) []⟩

/-- C8 counterexample: with the corpus readable and the sidecar present but
unreadable, the startup does not rebuild — it throws: `fs.readFileSync` at
line 45 raises, the exception is uncaught, and no build event is emitted. -/
theorem c8_unreadable_sidecar_counterexample :
    startup constHash64 (fun _ => []) (fun _ => (.ok 0 : Except Unit Nat)) true
        (JsFS.mk (.readable [1, 2, 3]) .unreadable (some 0)) =
      (.error .sidecarUnreadable, Trace.mk 0 []) ∧
    Ev.buildOk ∉ (startup constHash64 (fun _ => []) (fun _ => (.ok 0 : Except Unit Nat)) true
        (JsFS.mk (.readable [1, 2, 3]) .unreadable (some 0))).2.events := by
  exact ⟨rfl, by decide⟩

/-- C8 amended: for every corpus and every hash/loader/build function, a
present-but-unreadable sidecar makes the startup fail with the uncaught read
error; no rebuild is attempted (no embedding calls, no writes). -/
theorem c8_unreadable_sidecar_fatal {ι : Type} (hash : List Nat → String)
    (loadDocs : List Nat → List Doc) (build : List Doc → Except Unit ι)
    (saveOk : Bool) (bytes : List Nat) (idx : Option ι) :
    startup hash loadDocs build saveOk (JsFS.mk (.readable bytes) .unreadable idx) =
      (.error .sidecarUnreadable, Trace.mk 0 []) := rfl

/-- C5: running the startup a second time after any successful run, with the
corpus unchanged, performs zero embedding calls, emits no write events (the
rebuild branch is not entered, since the stored fingerprint equals the
freshly computed one), and returns the file system unchanged — in
particular the persisted index is byte-for-byte the same.  The hypothesis
`hne` is the sha256 interface fact that a hex digest is never empty. -/
theorem c5_indexing_idempotent {ι : Type} (hash : List Nat → String)
    (loadDocs : List Nat → List Doc) (build : List Doc → Except Unit ι)
    (saveOk : Bool) (fs fs1 : JsFS ι) (tr1 : Trace)
    (hne : ∀ b, hash b ≠ "")
    (h1 : startup hash loadDocs build saveOk fs = (.ok fs1, tr1)) :
    startup hash loadDocs build saveOk fs1 = (.ok fs1, Trace.mk 0 []) := by
  obtain ⟨bytes, idx, rfl⟩ := startup_ok_shape hash loadDocs build saveOk fs fs1 tr1 h1
  exact startup_fresh_sidecar hash loadDocs build saveOk bytes idx (hne bytes)

/-- Witness for C5: a concrete first run (fresh file system, one-byte
corpus) followed by the theorem's second run. -/
theorem c5_indexing_idempotent_witness :
    (∀ b, constHash64 b ≠ "") ∧
    startup constHash64 (fun _ => []) (fun _ => (.ok 0 : Except Unit Nat)) true
        (JsFS.mk (.readable [1]) .absent none) =
      (.ok (JsFS.mk (.readable [1]) (.readable (constHash64 [1])) (some 0)),
       Trace.mk 0 [Ev.buildOk, Ev.persistIndex, Ev.writeSidecar]) ∧
    startup constHash64 (fun _ => []) (fun _ => (.ok 0 : Except Unit Nat)) true
        (JsFS.mk (.readable [1]) (.readable (constHash64 [1])) (some 0)) =
      (.ok (JsFS.mk (.readable [1]) (.readable (constHash64 [1])) (some 0)),
       Trace.mk 0 []) :=
  ⟨constHash64_ne_empty, rfl,
    c5_indexing_idempotent constHash64 (fun _ => []) (fun _ => (.ok 0 : Except Unit Nat)) true
      (JsFS.mk (.readable [1]) .absent none)
      (JsFS.mk (.readable [1]) (.readable (constHash64 [1])) (some 0))
      (Trace.mk 0 [Ev.buildOk, Ev.persistIndex, Ev.writeSidecar])
      constHash64_ne_empty rfl⟩

/-- The write events of any startup run come in exactly one of three shapes:
nothing, a build with a failed save, or the full
build-then-persist-then-sidecar sequence. -/
theorem startup_events_cases {ι : Type} (hash : List Nat → String)
    (loadDocs : List Nat → List Doc) (build : List Doc → Except Unit ι)
    (saveOk : Bool) (fs : JsFS ι) :
    (startup hash loadDocs build saveOk fs).2.events = [] ∨
    (startup hash loadDocs build saveOk fs).2.events = [Ev.buildOk] ∨
    (startup hash loadDocs build saveOk fs).2.events =
      [Ev.buildOk, Ev.persistIndex, Ev.writeSidecar] := by
  obtain ⟨corpusF, sidecarF, idxD⟩ := fs
  cases corpusF with
  | absent => left; rfl
  | unreadable => left; rfl
  | readable bytes =>
    cases sidecarF with
    | unreadable => left; rfl
    | absent =>
      simp only [startup, readSidecar]
      cases hb : build (loadDocs bytes) with
      | error e => left; rfl
      | ok idx =>
        cases saveOk with
        | true => right; right; rfl
        | false => right; left; rfl
    | readable prev =>
      simp only [startup, readSidecar]
      cases hcond : shouldReindex (some prev) (hash bytes) with
      | true =>
        cases hb : build (loadDocs bytes) with
        | error e => left; rfl
        | ok idx =>
          cases saveOk with
          | true => right; right; rfl
          | false => right; left; rfl
      | false =>
        cases idxD with
        | none => left; rfl
        | some i => left; rfl

/-- C6: whenever the fingerprint sidecar is written, the trace is exactly
build success, then index persist, then the sidecar write — the index write
strictly precedes the fingerprint write, and the fingerprint is recorded
only after a successful build and persist. -/
theorem c6_sidecar_written_last {ι : Type} (hash : List Nat → String)
    (loadDocs : List Nat → List Doc) (build : List Doc → Except Unit ι)
    (saveOk : Bool) (fs : JsFS ι)
    (h : Ev.writeSidecar ∈ (startup hash loadDocs build saveOk fs).2.events) :
    (startup hash loadDocs build saveOk fs).2.events =
      [Ev.buildOk, Ev.persistIndex, Ev.writeSidecar] := by
  rcases startup_events_cases hash loadDocs build saveOk fs with he | he | he
  · rw [he] at h; exact absurd h (List.not_mem_nil _)
  · rw [he] at h; exact absurd h (by decide)
  · exact he

/-- Witness for C6: a concrete rebuilding run in which the sidecar is
written. -/
theorem c6_sidecar_written_last_witness :
    Ev.writeSidecar ∈ (startup constHash64 (fun _ => []) (fun _ => (.ok 0 : Except Unit Nat))
        true (JsFS.mk (.readable [1]) .absent none)).2.events ∧
    (startup constHash64 (fun _ => []) (fun _ => (.ok 0 : Except Unit Nat))
        true (JsFS.mk (.readable [1]) .absent none)).2.events =
      [Ev.buildOk, Ev.persistIndex, Ev.writeSidecar] :=
  ⟨by decide,
    c6_sidecar_written_last constHash64 (fun _ => []) (fun _ => (.ok 0 : Except Unit Nat))
      true (JsFS.mk (.readable [1]) .absent none) (by decide)⟩

/-- C10: an existing but empty sidecar is falsy at line 50, so the rebuild
condition holds for every freshly computed hash, and the whole startup
behaves exactly as if the sidecar were absent. -/
theorem c10_empty_sidecar_like_absent {ι : Type} (hash : List Nat → String)
    (loadDocs : List Nat → List Doc) (build : List Doc → Except Unit ι)
    (saveOk : Bool) (corpusF : FileState (List Nat)) (idx : Option ι) :
    (∀ c, shouldReindex (some "") c = true) ∧
    startup hash loadDocs build saveOk (JsFS.mk corpusF (.readable "") idx) =
      startup hash loadDocs build saveOk (JsFS.mk corpusF .absent idx) := by
  refine ⟨fun c => rfl, ?_⟩
  cases corpusF <;> rfl

/-! ## Part B: the conversational retrieval chain (src/index.js lines 73-176) -/

/-- A chat message, as used in prompts and in the stored history. -/
inductive Msg where
  | system (content : String)
  | human (content : String)
  | ai (content : String)
deriving DecidableEq

/-- JavaScript `Array.prototype.join(sep)` on a list of strings. -/
def joinWith (sep : String) : List String → String
  | [] => ""
  | [s] => s
  | s :: rest => s ++ sep ++ joinWith sep rest

/-- `convertDocsToString`, lines 73-77: wrap each retrieved document's page
content in a `<doc>` marker and join the blocks with newlines. -/
def convertDocsToString (documents : List Doc) : String :=
  joinWith "\n" (documents.map (fun document => "<doc>\n" ++ document.pageContent ++ "\n</doc>"))

/-- The fixed delimiting marker around one document's content. -/
def wrapDoc (d : Doc) : String := "<doc>\n" ++ d.pageContent ++ "\n</doc>"

theorem convertDocsToString_eq (documents : List Doc) :
    convertDocsToString documents = joinWith "\n" (documents.map wrapDoc) := rfl

theorem joinWith_cons (sep s : String) (l : List String) (h : l ≠ []) :
    joinWith sep (s :: l) = s ++ sep ++ joinWith sep l := by
  cases l with
  | nil => exact absurd rfl h
  | cons x xs => rfl

/-- Any element of the joined list occurs verbatim in the joined string. -/
theorem joinWith_decomp_one (sep : String) (xs : List String) (y : String) (ys : List String) :
    ∃ A C, joinWith sep (xs ++ y :: ys) = A ++ y ++ C := by
  induction xs with
  | nil =>
    cases ys with
    | nil => exact ⟨"", "", by simp [joinWith, String.empty_append, String.append_empty]⟩
    | cons y2 ys2 =>
      refine ⟨"", sep ++ joinWith sep (y2 :: ys2), ?_⟩
      rw [List.nil_append, joinWith_cons sep y (y2 :: ys2) (by simp)]
      simp [String.append_assoc, String.empty_append]
  | cons x xs ih =>
    obtain ⟨A, C, hAC⟩ := ih
    refine ⟨x ++ sep ++ A, C, ?_⟩
    rw [List.cons_append, joinWith_cons sep x (xs ++ y :: ys) (by simp), hAC]
    simp [String.append_assoc]

/-- Two elements of the joined list occur in the joined string in their
list order. -/
theorem joinWith_decomp_two (sep : String) (xs : List String) (y : String) (zs : List String)
    (w : String) (ws : List String) :
    ∃ A B C, joinWith sep (xs ++ (y :: (zs ++ (w :: ws)))) = A ++ y ++ B ++ w ++ C := by
  induction xs with
  | nil =>
    obtain ⟨A, C, hAC⟩ := joinWith_decomp_one sep zs w ws
    refine ⟨"", sep ++ A, C, ?_⟩
    rw [List.nil_append, joinWith_cons sep y (zs ++ (w :: ws)) (by simp), hAC]
    simp [String.append_assoc, String.empty_append]
  | cons x xs ih =>
    obtain ⟨A, B, C, h⟩ := ih
    refine ⟨x ++ sep ++ A, B, C, ?_⟩
    rw [List.cons_append, joinWith_cons sep x (xs ++ (y :: (zs ++ (w :: ws)))) (by simp), h]
    simp [String.append_assoc]

/-- C9: the formatted context string wraps each document's content in the
fixed `<doc>` marker, joins blocks with newlines, and preserves retrieval
order — for `i < j`, the block of document `i` occurs before the block of
document `j` in the output. -/
theorem c9_convertDocs_preserves_order (docs : List Doc) (i j : Nat)
    (hij : i < j) (hj : j < docs.length) :
    (∀ d, convertDocsToString [d] = "<doc>\n" ++ d.pageContent ++ "\n</doc>") ∧
    ∃ A B C, convertDocsToString docs =
      A ++ wrapDoc docs[i] ++ B ++ wrapDoc docs[j] ++ C := by
  refine ⟨fun d => rfl, ?_⟩
  have hi : i < docs.length := Nat.lt_trans hij hj
  have e3 : (docs.drop (i+1)).drop (j - (i+1)) = docs.drop j := by
    rw [List.drop_drop]
    congr 1
    omega
  have h1 : docs = docs.take i ++ (docs[i] ::
      ((docs.drop (i+1)).take (j - (i+1)) ++ (docs[j] :: docs.drop (j+1)))) := by
    calc docs = docs.take i ++ docs.drop i := (List.take_append_drop i docs).symm
      _ = docs.take i ++ (docs[i] :: docs.drop (i+1)) := by
          rw [List.drop_eq_getElem_cons hi]
      _ = docs.take i ++ (docs[i] ::
            ((docs.drop (i+1)).take (j - (i+1)) ++ (docs.drop (i+1)).drop (j - (i+1)))) := by
          rw [List.take_append_drop]
      _ = docs.take i ++ (docs[i] ::
            ((docs.drop (i+1)).take (j - (i+1)) ++ (docs[j] :: docs.drop (j+1)))) := by
          rw [e3, List.drop_eq_getElem_cons hj]
  obtain ⟨A, B, C, h⟩ := joinWith_decomp_two "\n" ((docs.take i).map wrapDoc)
    (wrapDoc docs[i]) (((docs.drop (i+1)).take (j - (i+1))).map wrapDoc)
    (wrapDoc docs[j]) ((docs.drop (j+1)).map wrapDoc)
  refine ⟨A, B, C, ?_⟩
  conv_lhs => rw [h1]
  rw [convertDocsToString_eq]
  simp only [List.map_append, List.map_cons]
  exact h

/-- Witness for C9 on a concrete two-document retrieval result. -/
theorem c9_convertDocs_preserves_order_witness :
    (0 : Nat) < 1 ∧ 1 < ([Doc.mk "alpha" [], Doc.mk "beta" []] : List Doc).length ∧
    ((∀ d, convertDocsToString [d] = "<doc>\n" ++ d.pageContent ++ "\n</doc>") ∧
     ∃ A B C, convertDocsToString [Doc.mk "alpha" [], Doc.mk "beta" []] =
       A ++ wrapDoc ([Doc.mk "alpha" [], Doc.mk "beta" []] : List Doc)[0] ++ B ++
       wrapDoc ([Doc.mk "alpha" [], Doc.mk "beta" []] : List Doc)[1] ++ C) :=
  ⟨by decide, by decide,
    c9_convertDocs_preserves_order [Doc.mk "alpha" [], Doc.mk "beta" []] 0 1
      (by decide) (by decide)⟩

/-- Lines 89-91: the rephrase stage's system instruction. -/
def REPHRASE_QUESTION_SYSTEM_TEMPLATE : String :=
  "Given the following conversation and a follow up question, \nrephrase the follow up question to be a standalone question."

/-- Lines 93-100: the rephrase prompt — system instruction, the full
history, then the human message with the follow-up question substituted
for the `question` placeholder. -/
def rephraseQuestionChainPrompt (history : List Msg) (question : String) : List Msg :=
  Msg.system REPHRASE_QUESTION_SYSTEM_TEMPLATE ::
    (history ++ [Msg.human ("Rephrase the following question as a standalone question:\n" ++ question)])

/-- The input record of the conversational chain: the `question` key plus
the `history` injected by the message-history wrapper. -/
structure ChainInput where
  question : String
  history : List Msg
deriving DecidableEq

/-- The input record after `RunnablePassthrough.assign` at lines 137-139
added the `standalone_question` key. -/
structure ChainInputS where
  question : String
  history : List Msg
  standalone_question : String
deriving DecidableEq

/-- Lines 102-105: the rephrase chain — format the rephrase prompt and call
the chat model (an external black box, passed as `rephraseModel`). -/
def rephraseQuestionChain (rephraseModel : List Msg → Except Unit String)
    (input : ChainInput) : Except Unit String :=
  rephraseModel (rephraseQuestionChainPrompt input.history input.question)

/-- Lines 80-84: `documentRetrievalChain` — project the input record to its
`question` field, run the retriever on it, and format the documents.  Note
the source projects `input.question`, not `input.standalone_question`. -/
def documentRetrievalChain (retriever : String → Except Unit (List Doc))
    (input : ChainInputS) : Except Unit String :=
  (retriever input.question).map convertDocsToString

/-- Lines 113-122: the answer stage's system instruction with the retrieved
context substituted for the `context` placeholder. -/
def ANSWER_CHAIN_SYSTEM_TEMPLATE (context : String) : String :=
  "You are an experienced customer service representative, \nexpert at interpreting and answering questions based on provided sources.\nUsing the below provided context and chat history, \nanswer the user\x27s question to the best of \nyour ability \nusing only the resources provided. Be verbose!. If you don\x27t know the answer, just suggest the customer to contact customer service for human assistance.\n\n<context>\n"
    ++ context ++ "\n</context>"

/-- Lines 124-131: the answer prompt — system instruction embedding the
context, the full history, then the human message with the `question`
placeholder substituted. -/
def answerGenerationChainPrompt (context : String) (history : List Msg)
    (question : String) : List Msg :=
  Msg.system (ANSWER_CHAIN_SYSTEM_TEMPLATE context) ::
    (history ++ [Msg.human ("Now, answer this question using the previous context and chat history:\n" ++ question)])

/-- Lines 136-146: `conversationalRetrievalChain` — assign
`standalone_question` from the rephrase chain, assign `context` from
`documentRetrievalChain` (which reads the record's `question` field), then
format the answer prompt (whose `question` placeholder is also the record's
original `question`) and call the answer model.  The two chat models and
the retriever are external black boxes passed as functions. -/
def conversationalRetrievalChain (rephraseModel answerModel : List Msg → Except Unit String)
    (retriever : String → Except Unit (List Doc)) (input : ChainInput) :
    Except Unit String := do
  let standalone_question ← rephraseQuestionChain rephraseModel input
  let withSQ : ChainInputS := ChainInputS.mk input.question input.history standalone_question
  let context ← documentRetrievalChain retriever withSQ
  answerModel (answerGenerationChainPrompt context withSQ.history withSQ.question)

/-- Line 152: `getMessageHistory: (_sessionId) => messageHistory` — the
single module-wide `ChatMessageHistory` is returned for every session id;
the argument is ignored. -/
def getMessageHistory (messageHistory : List Msg) (_sessionId : String) : List Msg :=
  messageHistory

/-- Lines 150-155 and 167-171.  Modelled from the spec: the
`RunnableWithMessageHistory` wrapper (a library import, not part of this
repository's sources) injects the history returned by `getMessageHistory`
under the `history` key, runs the wrapped chain, and appends a user
`Message(question)` followed by an assistant `Message(answerText)` to that
history only after the chain succeeds; a failed chain leaves the history
untouched (spec section 4.7, steps 1-4).  The history lookup itself is the
source's `getMessageHistory` above. -/
def finalRetrievalChainInvoke (rephraseModel answerModel : List Msg → Except Unit String)
    (retriever : String → Except Unit (List Doc))
    (messageHistory : List Msg) (sessionId : String) (question : String) :
    Except Unit (String × List Msg) :=
  match conversationalRetrievalChain rephraseModel answerModel retriever
      (ChainInput.mk question (getMessageHistory messageHistory sessionId)) with
  | .error e => .error e
  | .ok answerText =>
      .ok (answerText, getMessageHistory messageHistory sessionId ++
        [Msg.human question, Msg.ai answerText])

/-- The external world of a single turn: the two chat-model calls and the
retriever call that turn will perform. -/
structure TurnEnv where
  rephraseModel : List Msg → Except Unit String
  answerModel : List Msg → Except Unit String
  retriever : String → Except Unit (List Doc)

/-- One iteration of the `askQuestion` loop (lines 165-176): invoke the
final chain with the fixed session id `"test"` on the global history. -/
def runTurn (env : TurnEnv) (messageHistory : List Msg) (question : String) :
    Except Unit (String × List Msg) :=
  finalRetrievalChainInvoke env.rephraseModel env.answerModel env.retriever
    messageHistory "test" question

/-- The `askQuestion` loop over a list of questions (each with its turn's
external world): a successful turn continues with the updated history, a
failed turn leaves the history as it was. -/
def runSession : List (String × TurnEnv) → List Msg → List Msg
  | [], st => st
  | (q, env) :: rest, st =>
    match runTurn env st q with
    | .error _ => st
    | .ok (_, st1) => runSession rest st1

/-- Decides whether every turn of the list succeeds when run in sequence
from the given history. -/
def allSucceedB : List (String × TurnEnv) → List Msg → Bool
  | [], _ => true
  | (q, env) :: rest, st =>
    match runTurn env st q with
    | .error _ => false
    | .ok (_, st1) => allSucceedB rest st1

/-- A rephrase-model stub that always returns a fixed, recognizably
different standalone question. -/
def rStub : List Msg → Except Unit String := fun _ => .ok "STANDALONE-REPHRASED"

/-- An answer-model stub that always answers the fixed string `"ANS"`. -/
def aStub : List Msg → Except Unit String := fun _ => .ok "ANS"

/-- A retriever stub that always returns no documents. -/
def retStub : String → Except Unit (List Doc) := fun _ => .ok []

/-- A turn whose three external calls all succeed. -/
def envOk : TurnEnv := TurnEnv.mk rStub aStub retStub

/-- A turn whose generation step fails (`ModelCallError` at the answer
model); rephrase and retrieval succeed. -/
def envFailGen : TurnEnv := TurnEnv.mk rStub (fun _ => .error ()) retStub

/-- A retriever defined only at the original user question. -/
def retOnlyOriginal : String → Except Unit (List Doc) :=
  fun q => if q = "What about returns?" then .ok [Doc.mk "refund policy document" []] else .error ()

/-- A retriever defined only at the standalone question produced by
`rStub`. -/
def retOnlyStandalone : String → Except Unit (List Doc) :=
  fun q => if q = "STANDALONE-REPHRASED" then .ok [Doc.mk "refund policy document" []] else .error ()

/-- The content carried by a message. -/
def msgContent : Msg → String
  | .system s => s
  | .human s => s
  | .ai s => s

/-- An answer-model stub that echoes the content of the last prompt
message (the human message carrying the `question` placeholder). -/
def aEcho : List Msg → Except Unit String :=
  fun msgs => .ok ((msgs.getLast?.map msgContent).getD "")

/-- The chain's output depends on the retriever only through its value at
the ORIGINAL question of the input record: `documentRetrievalChain`
projects `input.question`, so the standalone question never reaches the
retriever. -/
theorem chain_queries_retriever_at_original (rephraseModel answerModel : List Msg → Except Unit String)
    (ret ret2 : String → Except Unit (List Doc)) (input : ChainInput)
    (h : ret input.question = ret2 input.question) :
    conversationalRetrievalChain rephraseModel answerModel ret input =
      conversationalRetrievalChain rephraseModel answerModel ret2 input := by
  unfold conversationalRetrievalChain
  cases hr : rephraseQuestionChain rephraseModel input with
  | error e => rfl
  | ok sq => simp [documentRetrievalChain, h]

/-- C1 (code evaluated at the failing input): with a rephrase model that
returns the distinct standalone question `"STANDALONE-REPHRASED"` for the
turn `"What about returns?"`, (1) a retriever defined only at the original
question succeeds — so retrieval was invoked with the original question;
(2) a retriever defined only at the standalone question makes the turn
fail — so the standalone question did NOT drive retrieval, contradicting
the claim; and (3) the answer stage's human message carries the original
question, confirming that half of the claim. -/
theorem c1_retrieval_driven_by_original_question :
    conversationalRetrievalChain rStub aStub retOnlyOriginal
        (ChainInput.mk "What about returns?" []) = .ok "ANS" ∧
    conversationalRetrievalChain rStub aStub retOnlyStandalone
        (ChainInput.mk "What about returns?" []) = .error () ∧
    conversationalRetrievalChain rStub aEcho retOnlyOriginal
        (ChainInput.mk "What about returns?" []) =
      .ok "Now, answer this question using the previous context and chat history:\nWhat about returns?" := by
  refine ⟨rfl, rfl, rfl⟩

/-- C2 counterexample: all external calls succeed; a turn run under session
id `"A"` appends two messages, and the history subsequently looked up for
the distinct session id `"B"` contains exactly those messages — they are
visible across sessions. -/
theorem c2_cross_session_visibility_counterexample :
    finalRetrievalChainInvoke rStub aStub retStub [] "A" "q1" =
      .ok ("ANS", [Msg.human "q1", Msg.ai "ANS"]) ∧
    getMessageHistory [Msg.human "q1", Msg.ai "ANS"] "B" = [Msg.human "q1", Msg.ai "ANS"] :=
  ⟨rfl, rfl⟩

/-- C2 amended: there is a single global history shared by every session
id — after a successful turn under any session id `s1`, the history looked
up for any session id `s2` is the old one plus the turn's user and
assistant messages. -/
theorem c2_single_shared_history (rephraseModel answerModel : List Msg → Except Unit String)
    (retriever : String → Except Unit (List Doc)) (messageHistory : List Msg)
    (s1 s2 q ans : String) (messageHistory2 : List Msg)
    (h : finalRetrievalChainInvoke rephraseModel answerModel retriever
        messageHistory s1 q = .ok (ans, messageHistory2)) :
    getMessageHistory messageHistory2 s2 =
      getMessageHistory messageHistory s2 ++ [Msg.human q, Msg.ai ans] := by
  unfold finalRetrievalChainInvoke at h
  cases hc : conversationalRetrievalChain rephraseModel answerModel retriever
      (ChainInput.mk q (getMessageHistory messageHistory s1)) with
  | error e => rw [hc] at h; cases h
  | ok a =>
    rw [hc] at h
    simp only [Except.ok.injEq, Prod.mk.injEq] at h
    rw [← h.2, h.1]
    rfl

/-- Witness for C2's amended statement at concrete sessions `"A"`, `"B"`. -/
theorem c2_single_shared_history_witness :
    finalRetrievalChainInvoke rStub aStub retStub [] "A" "q1" =
      .ok ("ANS", [Msg.human "q1", Msg.ai "ANS"]) ∧
    getMessageHistory [Msg.human "q1", Msg.ai "ANS"] "B" =
      getMessageHistory [] "B" ++ [Msg.human "q1", Msg.ai "ANS"] :=
  ⟨rfl, c2_single_shared_history rStub aStub retStub [] "A" "B" "q1" "ANS"
    [Msg.human "q1", Msg.ai "ANS"] rfl⟩

/-- A successful turn appends exactly the user message then the assistant
message to the history it started from. -/
theorem runTurn_ok_shape (env : TurnEnv) (st : List Msg) (q ans : String) (st1 : List Msg)
    (h : runTurn env st q = .ok (ans, st1)) :
    st1 = st ++ [Msg.human q, Msg.ai ans] := by
  unfold runTurn finalRetrievalChainInvoke at h
  cases hc : conversationalRetrievalChain env.rephraseModel env.answerModel env.retriever
      (ChainInput.mk q (getMessageHistory st "test")) with
  | error e => rw [hc] at h; cases h
  | ok a =>
    rw [hc] at h
    simp only [Except.ok.injEq, Prod.mk.injEq] at h
    rw [← h.2, h.1]
    rfl

/-- A session run only ever appends to the history it started from. -/
theorem runSession_extends (turns : List (String × TurnEnv)) (st : List Msg) :
    ∃ rest, runSession turns st = st ++ rest := by
  induction turns generalizing st with
  | nil => exact ⟨[], by simp [runSession]⟩
  | cons t rest ih =>
    obtain ⟨q, env⟩ := t
    cases hr : runTurn env st q with
    | error e => exact ⟨[], by simp [runSession, hr]⟩
    | ok pr =>
      obtain ⟨ans, st1⟩ := pr
      obtain ⟨r2, hr2⟩ := ih st1
      refine ⟨[Msg.human q, Msg.ai ans] ++ r2, ?_⟩
      have hst1 := runTurn_ok_shape env st q ans st1 hr
      simp only [runSession, hr]
      rw [hr2, hst1, List.append_assoc]

/-- When every turn of `l1` succeeds, running `l1 ++ l2` is running `l1`
and then `l2` from the resulting history. -/
theorem runSession_append (l1 l2 : List (String × TurnEnv)) (st : List Msg)
    (h : allSucceedB l1 st = true) :
    runSession (l1 ++ l2) st = runSession l2 (runSession l1 st) := by
  induction l1 generalizing st with
  | nil => simp [runSession]
  | cons t rest ih =>
    obtain ⟨q, env⟩ := t
    cases hr : runTurn env st q with
    | error e => simp only [allSucceedB, hr] at h; exact absurd h Bool.false_ne_true
    | ok pr =>
      obtain ⟨ans, st1⟩ := pr
      simp only [allSucceedB, hr] at h
      simp only [List.cons_append, runSession, hr]
      exact ih st1 h

/-- After a run in which every turn succeeds, the history is the starting
history followed by one (user question, assistant answer) message pair per
turn, in turn order. -/
theorem runSession_all_ok (turns : List (String × TurnEnv)) (st : List Msg)
    (h : allSucceedB turns st = true) :
    ∃ answers : List String, answers.length = turns.length ∧
      runSession turns st = st ++
        (List.zipWith (fun q a => [Msg.human q, Msg.ai a]) (turns.map Prod.fst) answers).flatten := by
  induction turns generalizing st with
  | nil => exact ⟨[], rfl, by simp [runSession]⟩
  | cons t rest ih =>
    obtain ⟨q, env⟩ := t
    cases hr : runTurn env st q with
    | error e => simp only [allSucceedB, hr] at h; exact absurd h Bool.false_ne_true
    | ok pr =>
      obtain ⟨ans, st1⟩ := pr
      simp only [allSucceedB, hr] at h
      obtain ⟨answers, hlen, hrun⟩ := ih st1 h
      refine ⟨ans :: answers, by simp [hlen], ?_⟩
      have hst1 := runTurn_ok_shape env st q ans st1 hr
      simp only [runSession, hr, List.map_cons, List.zipWith_cons_cons, List.flatten_cons]
      rw [hrun, hst1, List.append_assoc]

/-- The flattened interleaving of `N` questions with `N` answers has
length `2N`. -/
theorem interleave_length (qs answers : List String) (h : answers.length = qs.length) :
    ((List.zipWith (fun q a => [Msg.human q, Msg.ai a]) qs answers).flatten).length
      = 2 * qs.length := by
  induction qs generalizing answers with
  | nil => simp
  | cons q qs ih =>
    cases answers with
    | nil => simp at h
    | cons a answers =>
      have h2 : answers.length = qs.length := by simpa using h
      have := ih answers h2
      simp [List.zipWith_cons_cons, List.flatten_cons, this]
      omega

/-- C3: if the first `k-1` turns of a session all succeed and turn `k`
fails (at any stage), the failed turn leaves the session history exactly
as it was: `2(k-1)` messages. -/
theorem c3_failed_turn_preserves_history (good : List (String × TurnEnv))
    (q : String) (env : TurnEnv)
    (hgood : allSucceedB good [] = true)
    (hfail : runTurn env (runSession good []) q = .error ()) :
    runSession (good ++ [(q, env)]) [] = runSession good [] ∧
    (runSession (good ++ [(q, env)]) []).length = 2 * good.length := by
  have h1 : runSession (good ++ [(q, env)]) [] = runSession good [] := by
    rw [runSession_append good [(q, env)] [] hgood]
    simp [runSession, hfail]
  obtain ⟨answers, hlen, hrun⟩ := runSession_all_ok good [] hgood
  have hlength : (runSession good []).length = 2 * good.length := by
    rw [hrun]
    simpa using interleave_length (good.map Prod.fst) answers (by simp [hlen])
  exact ⟨h1, h1 ▸ hlength⟩

/-- Witness for C3: one successful turn, then a turn whose generation step
fails; the history keeps exactly the two messages of the first turn. -/
theorem c3_failed_turn_preserves_history_witness :
    allSucceedB [("q1", envOk)] [] = true ∧
    runTurn envFailGen (runSession [("q1", envOk)] []) "q2" = .error () ∧
    (runSession ([("q1", envOk)] ++ [("q2", envFailGen)]) [] = runSession [("q1", envOk)] [] ∧
     (runSession ([("q1", envOk)] ++ [("q2", envFailGen)]) []).length =
       2 * ([("q1", envOk)] : List (String × TurnEnv)).length) :=
  ⟨rfl, rfl, c3_failed_turn_preserves_history [("q1", envOk)] "q2" envFailGen rfl rfl⟩

/-- C4: after `N` successful turns from an empty history, the session
history is exactly the user/assistant message pairs of the turns in
chronological order — `2N` messages, user before assistant within each
turn — and further turns only ever append to it. -/
theorem c4_history_ordering (turns : List (String × TurnEnv))
    (hgood : allSucceedB turns [] = true) :
    (∃ answers : List String, answers.length = turns.length ∧
       runSession turns [] =
         (List.zipWith (fun q a => [Msg.human q, Msg.ai a]) (turns.map Prod.fst) answers).flatten) ∧
    (runSession turns []).length = 2 * turns.length ∧
    ∀ more, ∃ rest, runSession (turns ++ more) [] = runSession turns [] ++ rest := by
  obtain ⟨answers, hlen, hrun⟩ := runSession_all_ok turns [] hgood
  refine ⟨⟨answers, hlen, by simpa using hrun⟩, ?_, ?_⟩
  · rw [hrun]
    simpa using interleave_length (turns.map Prod.fst) answers (by simp [hlen])
  · intro more
    rw [runSession_append turns more [] hgood]
    exact runSession_extends more (runSession turns [])

/-- Witness for C4 on two concrete successful turns. -/
theorem c4_history_ordering_witness :
    allSucceedB [("q1", envOk), ("q2", envOk)] [] = true ∧
    ((∃ answers : List String,
        answers.length = ([("q1", envOk), ("q2", envOk)] : List (String × TurnEnv)).length ∧
        runSession [("q1", envOk), ("q2", envOk)] [] =
          (List.zipWith (fun q a => [Msg.human q, Msg.ai a])
            (([("q1", envOk), ("q2", envOk)] : List (String × TurnEnv)).map Prod.fst)
            answers).flatten) ∧
     (runSession [("q1", envOk), ("q2", envOk)] []).length =
       2 * ([("q1", envOk), ("q2", envOk)] : List (String × TurnEnv)).length ∧
     ∀ more, ∃ rest, runSession ([("q1", envOk), ("q2", envOk)] ++ more) [] =
       runSession [("q1", envOk), ("q2", envOk)] [] ++ rest) :=
  ⟨rfl, c4_history_ordering [("q1", envOk), ("q2", envOk)] rfl⟩

end QACSV
